import Mathlib

set_option maxRecDepth 40000

/-!
Shallow embedding of `src/FIR-Analysis/fir_count.py`, a postback-style
form-navigation crawler that aggregates dated FIR records into per-month
counts.  Pure helpers of the script become Lean functions; the network is
modelled as an explicit `Server` function threaded through the pagination
loop; HTML pages are modelled as a tree of element and text nodes.
-/

namespace FirCount

/-! ### Configuration constants (fir_count.py lines 24-28) -/

def START_YEAR : Nat := 2014
def END_YEAR : Nat := 2025

/-! ### Date extraction (fir_count.py lines 65-77)

`DATE_RE` is one-or-two digits, a separator (dot, slash or dash), one-or-two
digits, a separator, then two-to-four digits; it is searched with Python
`re.search` semantics: the leftmost position admitting a match wins, and at
that position each one-or-two-digit group is greedy with backtracking while
the trailing year group greedily takes up to four digits. -/

def isDateSep (c : Char) : Bool := c == '.' || c == '/' || c == '-'

/-- The greedy candidate splits of a `\d{1,2}` group: two digits first
(if available), then one digit. -/
def digitSplits12 : List Char → List (List Char × List Char)
  | c1 :: c2 :: r =>
    if c1.isDigit then
      if c2.isDigit then [([c1, c2], r), ([c1], c2 :: r)] else [([c1], c2 :: r)]
    else []
  | [c1] => if c1.isDigit then [([c1], [])] else []
  | [] => []

/-- Take up to `n` leading digits. -/
def takeDigits : Nat → List Char → List Char
  | 0, _ => []
  | _, [] => []
  | n + 1, c :: r => if c.isDigit then c :: takeDigits n r else []

/-- Try to match `DATE_RE` anchored at the head of `cs`, returning the three
captured digit groups (day, month, year). -/
def matchDateAt (cs : List Char) : Option (List Char × List Char × List Char) :=
  (digitSplits12 cs).findSome? fun dr =>
    match dr.2 with
    | s1 :: r2 =>
      if isDateSep s1 then
        (digitSplits12 r2).findSome? fun mr =>
          match mr.2 with
          | s2 :: r4 =>
            if isDateSep s2 then
              let ys := takeDigits 4 r4
              if 2 ≤ ys.length then some (dr.1, mr.1, ys) else none
            else none
          | [] => none
      else none
    | [] => none

/-- `re.search`: first position where `DATE_RE` matches. -/
def searchDate : List Char → Option (List Char × List Char × List Char)
  | [] => none
  | c :: rest =>
    match matchDateAt (c :: rest) with
    | some g => some g
    | none => searchDate rest

/-- Python `int` on a digit string. -/
def natOfDigits (cs : List Char) : Nat :=
  cs.foldl (fun a c => a * 10 + (c.toNat - 48)) 0

/-- Leap-year rule used by Python's `datetime`. -/
def isLeap (y : Nat) : Bool := y % 4 == 0 && (y % 100 != 0 || y % 400 == 0)

/-- Days in a month, per Python's `datetime`. -/
def daysInMonth (y m : Nat) : Nat :=
  if m = 2 then (if isLeap y then 29 else 28)
  else if m = 4 ∨ m = 6 ∨ m = 9 ∨ m = 11 then 30
  else 31

/-- `datetime(y, m, d)` succeeds exactly on these arguments. -/
def validDate (y m d : Nat) : Bool :=
  1 ≤ y && y ≤ 9999 && 1 ≤ m && m ≤ 12 && 1 ≤ d && d ≤ daysInMonth y m

structure SimpleDate where
  year : Nat
  month : Nat
  day : Nat
deriving DecidableEq, Repr

/-- `extract_date_from_text` (fir_count.py lines 67-77): first `DATE_RE`
match in the text; a two-digit year is prefixed with `20`; `None` when the
matched digits are not a valid calendar date. -/
def extract_date_from_text (text : String) : Option SimpleDate :=
  match searchDate text.toList with
  | none => none
  | some (d, mo, y) =>
    let y' := if y.length = 2 then '2' :: '0' :: y else y
    let yi := natOfDigits y'
    let mi := natOfDigits mo
    let di := natOfDigits d
    if validDate yi mi di then some ⟨yi, mi, di⟩ else none

/-! ### HTML model

A parsed page (`BeautifulSoup` document) is a forest of nodes; an element
node has a tag, an attribute list and children.  `find` and `find_all`
search the element descendants in document (preorder) order. -/

inductive Node where
  | elem : String → List (String × String) → List Node → Node
  | text : String → Node

/-- A parsed document: the top-level nodes. -/
def Soup := List Node

mutual

/-- Element nodes of the subtree rooted at a node (the node itself included
when it is an element), in document order. -/
def elemsOf : Node → List Node
  | .text _ => []
  | .elem t a cs => .elem t a cs :: elemsOfList cs

def elemsOfList : List Node → List Node
  | [] => []
  | n :: ns => elemsOf n ++ elemsOfList ns

end

/-- All element nodes of a document, in document order. -/
def Soup.allElems (s : Soup) : List Node := elemsOfList s

mutual

/-- The text-node strings of a subtree, in document order. -/
def textsOf : Node → List String
  | .text s => [s]
  | .elem _ _ cs => textsOfList cs

def textsOfList : List Node → List String
  | [] => []
  | n :: ns => textsOf n ++ textsOfList ns

end

def Node.tag : Node → String
  | .elem t _ _ => t
  | .text _ => ""

def Node.attrList : Node → List (String × String)
  | .elem _ a _ => a
  | .text _ => []

def Node.children : Node → List Node
  | .elem _ _ cs => cs
  | .text _ => []

/-- Attribute lookup (first occurrence wins, as in BeautifulSoup). -/
def Node.attr (n : Node) (k : String) : Option String :=
  (n.attrList.find? fun p => p.1 = k).map Prod.snd

/-- `tag.get(key, default)`. -/
def Node.attrD (n : Node) (k d : String) : String := (n.attr k).getD d

/-- `soup.find(tagName, id=idVal)`: first element with that tag and id. -/
def Soup.findTagById (s : Soup) (tagName idVal : String) : Option Node :=
  s.allElems.find? fun n => n.tag = tagName ∧ n.attr "id" = some idVal

/-- `el.find_all(tagName)`: descendant elements of `el` (excluding `el`)
with the given tag, in document order. -/
def Node.findAllTag (n : Node) (tagName : String) : List Node :=
  (elemsOfList n.children).filter fun e => e.tag = tagName

/-- `el.find(tagName)`: first descendant element with the given tag. -/
def Node.findTag (n : Node) (tagName : String) : Option Node :=
  (n.findAllTag tagName).head?

/-- Python whitespace. -/
def isPySpace (c : Char) : Bool :=
  c == ' ' || c == '\t' || c == '\n' || c == '\x0d' || c == '\x0b' || c == '\x0c'

/-- Python `str.strip()`. -/
def pyStrip (s : String) : String :=
  String.mk (((s.toList.dropWhile isPySpace).reverse.dropWhile isPySpace).reverse)

/-- Join by single spaces. -/
def joinSpace : List String → String
  | [] => ""
  | [s] => s
  | s :: rest => s ++ " " ++ joinSpace rest

/-- `el.get_text(" ", strip=True)`: the stripped non-empty text-node
strings of the subtree, joined by single spaces. -/
def Node.getText (n : Node) : String :=
  joinSpace (((textsOf n).map pyStrip).filter fun s => ¬ s = "")

/-! ### Order-preserving deduplication

Both `parse_ps_options` and `find_postback_actions` deduplicate with a
`seen` set while appending first occurrences, and `fetch_counts_for_ps`
deduplicates page actions by argument. -/

def dedupKeyAux [DecidableEq β] (key : α → β) : List β → List α → List α
  | _, [] => []
  | seen, x :: xs =>
    if key x ∈ seen then dedupKeyAux key seen xs
    else x :: dedupKeyAux key (key x :: seen) xs

/-- Keep the first element for each key value, preserving order. -/
def dedupKey [DecidableEq β] (key : α → β) (l : List α) : List α :=
  dedupKeyAux key [] l

/-! ### StateTokenStore: `extract_hidden_fields` (fir_count.py lines 52-61) -/

structure Hidden where
  viewstate : String
  viewstategenerator : String
  eventvalidation : String
  lastfocus : String
deriving DecidableEq, Repr

/-- `val(id_)`: the `value` attribute of the first `input` with the given
id, or `""` when the element or the attribute is absent. -/
def hiddenVal (s : Soup) (idVal : String) : String :=
  match s.findTagById "input" idVal with
  | some el => el.attrD "value" ""
  | none => ""

def extract_hidden_fields (s : Soup) : Hidden :=
  { viewstate := hiddenVal s "__VIEWSTATE"
    viewstategenerator := hiddenVal s "__VIEWSTATEGENERATOR"
    eventvalidation := hiddenVal s "__EVENTVALIDATION"
    lastfocus := hiddenVal s "__LASTFOCUS" }

/-! ### OptionListExtractor: `parse_ps_options` (fir_count.py lines 81-102) -/

/-- The stripped `value` attributes of the options of the police-station
select, in document order; `[]` when the select is absent. -/
def psOptionValues (s : Soup) : List String :=
  match s.findTagById "select" "ctl00_ContentPlaceHolder1_ddlPoliceStation" with
  | none => []
  | some sel => (sel.findAllTag "option").map fun opt => pyStrip (opt.attrD "value" "")

def parse_ps_options (s : Soup) : List String :=
  dedupKey id ((psOptionValues s).filter fun v => ¬ v = "" ∧ ¬ v = "0")

/-! ### ResultPageParser: `parse_fir_rows` (fir_count.py lines 106-118) -/

def parse_fir_rows (s : Soup) : List (List String) :=
  match s.findTagById "table" "example" with
  | none => []
  | some table =>
    match table.findTag "tbody" with
    | none => []
    | some tbody =>
      ((tbody.findAllTag "tr").map fun tr =>
        (tr.findAllTag "td").map Node.getText).filter fun cols => cols ≠ []

/-! ### Postback discovery: `find_postback_actions` (fir_count.py lines 123-145)

`POSTBACK_RE` looks for a literal call of the form
`__doPostBack(<q>target<q> , <q>argument<q>)` where `<q>` is an apostrophe,
the captured groups contain no apostrophe, and optional whitespace
surrounds the comma. -/

def apos : Char := Char.ofNat 39

/-- Consume a literal prefix. -/
def stripPre : List Char → List Char → Option (List Char)
  | [], cs => some cs
  | _, [] => none
  | p :: ps, c :: cs => if p = c then stripPre ps cs else none

def expectChar (c : Char) : List Char → Option (List Char)
  | [] => none
  | x :: xs => if x = c then some xs else none

/-- Try to match `POSTBACK_RE` anchored at the head, returning the two
captured groups. -/
def matchPostbackAt (cs : List Char) : Option (String × String) := do
  let r1 ← stripPre (("__doPostBack(".toList) ++ [apos]) cs
  let tgt := r1.takeWhile fun c => c ≠ apos
  let r2 ← expectChar apos (r1.dropWhile fun c => c ≠ apos)
  let r3 ← expectChar ',' (r2.dropWhile isPySpace)
  let r4 ← expectChar apos (r3.dropWhile isPySpace)
  let arg := r4.takeWhile fun c => c ≠ apos
  let r5 ← expectChar apos (r4.dropWhile fun c => c ≠ apos)
  let _ ← expectChar ')' r5
  pure (String.mk tgt, String.mk arg)

/-- `POSTBACK_RE.search`: leftmost match. -/
def searchPostback : List Char → Option (String × String)
  | [] => none
  | c :: rest =>
    match matchPostbackAt (c :: rest) with
    | some g => some g
    | none => searchPostback rest

/-- For one `a`/`button` element: the matches contributed by its `onclick`
and `href` attributes (a non-empty source that matches contributes one
`(target, argument)` pair; both sources may contribute). -/
def nodeActions (n : Node) : List (String × String) :=
  ([n.attrD "onclick" "", n.attrD "href" ""].filter fun src => ¬ src = "").filterMap
    fun src => searchPostback src.toList

def find_postback_actions (s : Soup) : List (String × String) :=
  dedupKey id ((s.allElems.filter fun n =>
    n.tag = "a" ∨ n.tag = "button").flatMap nodeActions)

/-- Substring containment, Python `pat in s`. -/
def hasSub (pat : List Char) : List Char → Bool
  | [] => pat.isEmpty
  | c :: rest => pat.isPrefixOf (c :: rest) || hasSub pat rest

/-! ### DateBucketAggregator (fir_count.py lines 234-245 and 280-287)

A Python `Counter` is modelled as a total function from `(year, month)`
buckets to counts, defaulting to zero. -/

def Counts := Nat × Nat → Nat

def emptyCounts : Counts := fun _ => 0

def bump (c : Counts) (k : Nat × Nat) : Counts :=
  fun k' => if k' = k then c k + 1 else c k'

/-- The in-range date of one cell: its first `DATE_RE` match when that
match is a valid calendar date within `START_YEAR..END_YEAR`. -/
def cellDateInRange (cell : String) : Option SimpleDate :=
  match extract_date_from_text cell with
  | some dt => if START_YEAR ≤ dt.year ∧ dt.year ≤ END_YEAR then some dt else none
  | none => none

/-- The bucket a row counts toward: the row's cells are scanned in order
and the first cell yielding an in-range date wins (the `break`). -/
def rowBucket (cols : List String) : Option SimpleDate :=
  cols.findSome? cellDateInRange

def ingestRow (c : Counts) (cols : List String) : Counts :=
  match rowBucket cols with
  | some dt => bump c (dt.year, dt.month)
  | none => c

def ingestRows (c : Counts) (rows : List (List String)) : Counts :=
  rows.foldl ingestRow c

/-! ### PaginationWalker (fir_count.py lines 247-288)

`do_post` is modelled as a `Server` function from the posted
`(target, argument)` pair and the hidden-field snapshot included in the
payload to the response page, `none` standing for a raised transport
error.  The walker takes the page-turn actions from the first result page
only, deduplicates them by argument, and posts each in order; a failed
post is skipped (`continue`), a successful one contributes its rows and
replaces the hidden-field snapshot. -/

def Server := String → String → Hidden → Option Soup

/-- The loop over `ordered_page_actions` (fir_count.py lines 260-287).
Returns the final counts, the final hidden snapshot and the successfully
fetched pages in order. -/
def pageLoop (server : Server) : List (String × String) → Hidden → Counts →
    Counts × Hidden × List Soup
  | [], h, c => (c, h, [])
  | (t, a) :: rest, h, c =>
    match server t a h with
    | none => pageLoop server rest h c
    | some soup =>
      let h' := extract_hidden_fields soup
      let c' := ingestRows c (parse_fir_rows soup)
      let (cf, hf, pages) := pageLoop server rest h' c'
      (cf, hf, soup :: pages)

/-- Page-turn actions of a page, in discovery order, deduplicated by
argument (fir_count.py lines 248-257). -/
def orderedPageActions (s : Soup) : List (String × String) :=
  dedupKey Prod.snd
    ((find_postback_actions s).filter fun ta => hasSub "Page$".toList ta.2.toList)

/-- The part of `fetch_counts_for_ps` from the first result page on:
aggregate the first page's rows, then walk the page-turn actions.
Returns the counts and the visited pages (first page included). -/
def fetch_counts_core (first : Soup) (server : Server) : Counts × List Soup :=
  let c0 := ingestRows emptyCounts (parse_fir_rows first)
  let h0 := extract_hidden_fields first
  let (c, _, pages) := pageLoop server (orderedPageActions first) h0 c0
  (c, first :: pages)

/-! ### Month columns and the worker (fir_count.py lines 31-34, 292-306) -/

/-- Zero-pad to two digits, Python `f-string` `{m:02d}` for `m < 100`. -/
def pad2 (m : Nat) : String :=
  if m < 10 then "0" ++ toString m else toString m

def MONTH_COLS : List String :=
  (List.range (END_YEAR + 1 - START_YEAR)).flatMap fun i =>
    (List.range 12).map fun j => toString (START_YEAR + i) ++ "-" ++ pad2 (j + 1)

/-- `y, m = map(int, col.split("-"))` (the fallback is unreachable for
`MONTH_COLS` entries). -/
def parseMonthCol (s : String) : Nat × Nat :=
  match s.toList.splitOn '-' with
  | [ys, ms] => (natOfDigits ys, natOfDigits ms)
  | _ => (0, 0)

/-- The month-count fields of a worker row, in `MONTH_COLS` order
(fir_count.py lines 302-306). -/
def workerMonths (counts : Counts) : List Nat :=
  MONTH_COLS.map fun col => counts (parseMonthCol col)

/-- One output row: region id, sub-region id, month counts. -/
structure CountRow where
  district_id : Nat
  ps_id : String
  months : List Nat
deriving DecidableEq, Repr

/-- `worker_ps` (fir_count.py lines 292-306): the fetch outcome is passed
explicitly; a raised error (`Except.error`) is absorbed into an empty
counter. -/
def worker_ps (district_id : Nat) (ps_id : String)
    (fetched : Except String Counts) : CountRow :=
  let counts := match fetched with
    | .ok c => c
    | .error _ => emptyCounts
  ⟨district_id, ps_id, workerMonths counts⟩

/-- The rows `main` (fir_count.py lines 318-350) emits for one district:
a failed or empty police-station discovery yields one zero row with an
empty `ps_id`; otherwise one worker row per police station. -/
def regionRows (district_id : Nat) (disc : Except String (List String))
    (fetch : String → Except String Counts) : List CountRow :=
  let ps_list := match disc with
    | .ok l => l
    | .error _ => []
  if ps_list.isEmpty then
    [⟨district_id, "", List.replicate MONTH_COLS.length 0⟩]
  else
    ps_list.map fun ps => worker_ps district_id ps (fetch ps)

/-! ### Derived notions used by the statements -/

/-- The chronological list of `(year, month)` buckets. -/
def bucketList : List (Nat × Nat) :=
  (List.range (END_YEAR + 1 - START_YEAR)).flatMap fun i =>
    (List.range 12).map fun j => (START_YEAR + i, j + 1)

/-- Strict chronological order on buckets. -/
def bucketLt (a b : Nat × Nat) : Bool :=
  a.1 < b.1 || (a.1 == b.1 && a.2 < b.2)

/-- Bool-valued adjacent-pairs check. -/
def chainB (r : α → α → Bool) : List α → Bool
  | [] => true
  | [_] => true
  | a :: b :: rest => r a b && chainB r (b :: rest)

/-- The row scan prescribed by the spec sentence of claim C3: the scan
stops at the first cell whose first pattern match is a valid calendar
date, counting it only when it is in range.  (The source instead keeps
scanning past an out-of-range date; see `rowBucket`.) -/
def rowBucketClaimC3 (cols : List String) : Option SimpleDate :=
  match cols.findSome? extract_date_from_text with
  | some dt => if START_YEAR ≤ dt.year ∧ dt.year ≤ END_YEAR then some dt else none
  | none => none

/-! ### Concrete page fixtures for the counterexamples and witnesses -/

/-- An apostrophe as a one-character string. -/
def q : String := String.mk [apos]

/-- An `href` of the shape emitted by ASP.NET pager links. -/
def pbHref (t a : String) : String :=
  "javascript:__doPostBack(" ++ q ++ t ++ q ++ "," ++ q ++ a ++ q ++ ")"

def pageAnchor (t a : String) : Node := .elem "a" [("href", pbHref t a)] []

/-- A results table `#example` holding one `td` cell per given string. -/
def rowTable (rows : List (List String)) : Node :=
  .elem "table" [("id", "example")]
    [.elem "tbody" [] (rows.map fun r =>
      .elem "tr" [] (r.map fun c => .elem "td" [] [.text c]))]

/-- Page 1 of a three-page chain: each page links only to the next. -/
def chainPage1 : Soup := [rowTable [["05/03/2021"]], pageAnchor "gv" "Page$2"]

def chainPage2 : Soup := [rowTable [["06/03/2021"]], pageAnchor "gv" "Page$3"]

def chainPage3 : Soup := [rowTable [["07/03/2021"]]]

/-- A server presenting the three-page chain, keyed on the argument. -/
def chainServer : Server := fun _ a _ =>
  if a = "Page$2" then some chainPage2
  else if a = "Page$3" then some chainPage3
  else none

/-- First page offering two page-turn actions. -/
def twoActionPage1 : Soup :=
  [rowTable [["01/02/2020"]], pageAnchor "gv" "Page$2", pageAnchor "gv" "Page$3"]

/-- Page reached by the second action; dated rows distinct from page 1. -/
def twoActionPage3 : Soup := [rowTable [["05/03/2021"]]]

/-- A server whose `Page$2` post raises a transport error while the
`Page$3` post succeeds. -/
def failingServer : Server := fun _ a _ =>
  if a = "Page$3" then some twoActionPage3 else none

/-- A page offering the same page-turn argument twice. -/
def dupActionPage : Soup :=
  [pageAnchor "gv" "Page$2", .elem "button" [("onclick", pbHref "gv2" "Page$2")] []]

/-! ### General lemmas -/

theorem chainB_chain' (r : α → α → Bool) :
    ∀ l : List α, chainB r l = true → List.Chain' (fun a b => r a b = true) l
  | [], _ => List.chain'_nil
  | [_], _ => List.chain'_singleton _
  | a :: b :: rest, h => by
    rw [chainB, Bool.and_eq_true] at h
    exact List.chain'_cons.mpr ⟨h.1, chainB_chain' r (b :: rest) h.2⟩

theorem dedupKeyAux_sublist [DecidableEq β] (key : α → β) (l : List α) :
    ∀ seen : List β, List.Sublist (dedupKeyAux key seen l) l := by
  induction l with
  | nil => intro seen; simp [dedupKeyAux]
  | cons x xs ih =>
    intro seen
    rw [dedupKeyAux]
    by_cases hx : key x ∈ seen
    · simp only [hx, if_pos]
      exact (ih seen).cons x
    · simp only [hx, if_neg, not_false_iff]
      exact (ih (key x :: seen)).cons₂ x

theorem mem_map_dedupKeyAux [DecidableEq β] (key : α → β) (b : β) (l : List α) :
    ∀ seen : List β, (b ∈ (dedupKeyAux key seen l).map key ↔ b ∈ l.map key ∧ b ∉ seen) := by
  induction l with
  | nil => intro seen; simp [dedupKeyAux]
  | cons x xs ih =>
    intro seen
    rw [dedupKeyAux]
    by_cases hx : key x ∈ seen
    · simp only [hx, if_pos, ih seen, List.map_cons, List.mem_cons]
      constructor
      · rintro ⟨hm, hs⟩; exact ⟨Or.inr hm, hs⟩
      · rintro ⟨hm | hm, hs⟩
        · exact absurd (hm ▸ hx) hs
        · exact ⟨hm, hs⟩
    · simp only [hx, if_neg, not_false_iff, List.map_cons, List.mem_cons, ih (key x :: seen)]
      by_cases hb : b = key x
      · subst hb; simp [hx]
      · simp [hb]

theorem nodup_map_dedupKeyAux [DecidableEq β] (key : α → β) (l : List α) :
    ∀ seen : List β, ((dedupKeyAux key seen l).map key).Nodup := by
  induction l with
  | nil => intro seen; simp [dedupKeyAux]
  | cons x xs ih =>
    intro seen
    rw [dedupKeyAux]
    by_cases hx : key x ∈ seen
    · simpa [hx] using ih seen
    · simp only [hx, if_neg, not_false_iff, List.map_cons, List.nodup_cons]
      refine ⟨fun hmem => ?_, ih (key x :: seen)⟩
      exact ((mem_map_dedupKeyAux key (key x) xs (key x :: seen)).mp hmem).2 (List.mem_cons_self _ _)

theorem dedupKey_sublist [DecidableEq β] (key : α → β) (l : List α) :
    List.Sublist (dedupKey key l) l := dedupKeyAux_sublist key l []

theorem nodup_map_dedupKey [DecidableEq β] (key : α → β) (l : List α) :
    ((dedupKey key l).map key).Nodup := nodup_map_dedupKeyAux key l []

theorem mem_map_dedupKey [DecidableEq β] (key : α → β) (b : β) (l : List α) :
    b ∈ (dedupKey key l).map key ↔ b ∈ l.map key :=
  (mem_map_dedupKeyAux key b l []).trans (by simp)

theorem mem_dedupKey_id [DecidableEq α] (a : α) (l : List α) :
    a ∈ dedupKey id l ↔ a ∈ l := by
  simpa using mem_map_dedupKey id a l

theorem nodup_dedupKey_id [DecidableEq α] (l : List α) : (dedupKey id l).Nodup := by
  simpa using nodup_map_dedupKey id l

/-! ### Aggregation lemmas -/

theorem bump_le (c : Counts) (k k' : Nat × Nat) : c k' ≤ bump c k k' := by
  unfold bump
  by_cases h : k' = k
  · simp [h]
  · simp [h]

theorem ingestRow_le (c : Counts) (cols : List String) (k : Nat × Nat) :
    c k ≤ ingestRow c cols k := by
  unfold ingestRow
  cases rowBucket cols with
  | none => exact le_refl _
  | some dt => exact bump_le c _ k

theorem ingestRow_le_succ (c : Counts) (cols : List String) (k : Nat × Nat) :
    ingestRow c cols k ≤ c k + 1 := by
  unfold ingestRow
  cases rowBucket cols with
  | none => exact Nat.le_succ _
  | some dt =>
    unfold bump
    by_cases h : k = (dt.year, dt.month)
    · simp [h]
    · simp [h]

theorem ingestRow_eq_of_no_bucket (c : Counts) (cols : List String) (k : Nat × Nat)
    (h : ∀ dt, rowBucket cols = some dt → (dt.year, dt.month) ≠ k) :
    ingestRow c cols k = c k := by
  cases hb : rowBucket cols with
  | none => simp [ingestRow, hb]
  | some dt =>
    simp only [ingestRow, hb, bump]
    rw [if_neg]
    exact fun hk => h dt hb (hk ▸ rfl)

theorem ingestRows_le (rows : List (List String)) :
    ∀ (c : Counts) (k : Nat × Nat), c k ≤ ingestRows c rows k := by
  induction rows with
  | nil => intro c k; exact le_refl _
  | cons r rs ih =>
    intro c k
    show c k ≤ ingestRows (ingestRow c r) rs k
    exact le_trans (ingestRow_le c r k) (ih (ingestRow c r) k)

theorem ingestRows_eq_of_no_bucket (rows : List (List String)) (k : Nat × Nat)
    (h : ∀ r ∈ rows, ∀ dt, rowBucket r = some dt → (dt.year, dt.month) ≠ k) :
    ∀ c : Counts, ingestRows c rows k = c k := by
  induction rows with
  | nil => intro c; rfl
  | cons r rs ih =>
    intro c
    show ingestRows (ingestRow c r) rs k = c k
    rw [ih (fun r' hr' => h r' (List.mem_cons_of_mem r hr')) (ingestRow c r)]
    exact ingestRow_eq_of_no_bucket c r k (h r (List.mem_cons_self r rs))

/-! ### Pagination lemmas -/

theorem pageLoop_skip (server : Server) (t a : String) (rest : List (String × String))
    (h : Hidden) (c : Counts) (hfail : server t a h = none) :
    pageLoop server ((t, a) :: rest) h c = pageLoop server rest h c := by
  rw [pageLoop, hfail]

theorem pageLoop_counts_le (server : Server) (acts : List (String × String)) :
    ∀ (h : Hidden) (c : Counts) (k : Nat × Nat), c k ≤ (pageLoop server acts h c).1 k := by
  induction acts with
  | nil => intro h c k; exact le_refl _
  | cons ta rest ih =>
    intro h c k
    obtain ⟨t, a⟩ := ta
    rw [pageLoop]
    cases hs : server t a h with
    | none => exact ih h c k
    | some soup =>
      simp only
      exact le_trans (ingestRows_le (parse_fir_rows soup) c k)
        (ih (extract_hidden_fields soup) _ k)

theorem pageLoop_pages_le (server : Server) (acts : List (String × String)) :
    ∀ (h : Hidden) (c : Counts),
      (pageLoop server acts h c).2.2.length ≤ acts.length := by
  induction acts with
  | nil => intro h c; exact Nat.le_refl _
  | cons ta rest ih =>
    intro h c
    obtain ⟨t, a⟩ := ta
    rw [pageLoop]
    cases hs : server t a h with
    | none => exact le_trans (ih h c) (Nat.le_succ _)
    | some soup =>
      simp only [List.length_cons]
      exact Nat.succ_le_succ (ih (extract_hidden_fields soup) _)

theorem pageLoop_pages_eq (server : Server) (acts : List (String × String))
    (hok : ∀ ta ∈ acts, ∀ h : Hidden, server ta.1 ta.2 h ≠ none) :
    ∀ (h : Hidden) (c : Counts),
      (pageLoop server acts h c).2.2.length = acts.length := by
  induction acts with
  | nil => intro h c; rfl
  | cons ta rest ih =>
    intro h c
    obtain ⟨t, a⟩ := ta
    rw [pageLoop]
    cases hs : server t a h with
    | none => exact absurd hs (hok (t, a) (List.mem_cons_self _ _) h)
    | some soup =>
      simp only [List.length_cons]
      rw [ih (fun ta' hta' => hok ta' (List.mem_cons_of_mem _ hta'))]

theorem fetch_counts_core_pages_le (first : Soup) (server : Server) :
    (fetch_counts_core first server).2.length ≤ 1 + (orderedPageActions first).length := by
  unfold fetch_counts_core
  simp only [List.length_cons]
  rw [Nat.add_comm 1]
  exact Nat.succ_le_succ (pageLoop_pages_le server (orderedPageActions first) _ _)

theorem fetch_counts_core_pages_eq (first : Soup) (server : Server)
    (hok : ∀ t a : String, ∀ h : Hidden, server t a h ≠ none) :
    (fetch_counts_core first server).2.length = 1 + (orderedPageActions first).length := by
  unfold fetch_counts_core
  simp only [List.length_cons]
  rw [Nat.add_comm 1]
  rw [pageLoop_pages_eq server (orderedPageActions first)
    (fun ta _ h => hok ta.1 ta.2 h)]

/-! ### Row-scan characterization -/

theorem rowBucket_eq_some_iff (dt : SimpleDate) :
    ∀ cols : List String,
      (rowBucket cols = some dt ↔
        ∃ pre cell post, cols = pre ++ cell :: post ∧
          (∀ x ∈ pre, cellDateInRange x = none) ∧ cellDateInRange cell = some dt) := by
  intro cols
  induction cols with
  | nil =>
    simp only [rowBucket, List.findSome?_nil]
    constructor
    · intro h; exact absurd h (by simp)
    · rintro ⟨pre, cell, post, hcols, _, _⟩
      exact absurd hcols (by simp)
  | cons c cs ih =>
    rw [rowBucket, List.findSome?_cons]
    cases hc : cellDateInRange c with
    | some d =>
      dsimp only
      constructor
      · intro h
        exact ⟨[], c, cs, rfl, by simp, by rw [hc]; exact h⟩
      · rintro ⟨pre, cell, post, hcols, hpre, hcell⟩
        cases pre with
        | nil =>
          simp only [List.nil_append, List.cons.injEq] at hcols
          rw [hcols.1] at hc
          rw [← hc]
          exact hcell
        | cons p ps =>
          simp only [List.cons_append, List.cons.injEq] at hcols
          have hnone := hpre p (List.mem_cons_self p ps)
          rw [← hcols.1, hc] at hnone
          exact absurd hnone (by simp)
    | none =>
      dsimp only
      rw [show List.findSome? cellDateInRange cs = rowBucket cs from rfl, ih]
      constructor
      · rintro ⟨pre, cell, post, hcols, hpre, hcell⟩
        refine ⟨c :: pre, cell, post, by simp [hcols], ?_, hcell⟩
        intro x hx
        rcases List.mem_cons.mp hx with hx | hx
        · rw [hx]; exact hc
        · exact hpre x hx
      · rintro ⟨pre, cell, post, hcols, hpre, hcell⟩
        cases pre with
        | nil =>
          simp only [List.nil_append, List.cons.injEq] at hcols
          rw [hcols.1] at hc
          rw [hc] at hcell
          exact absurd hcell (by simp)
        | cons p ps =>
          simp only [List.cons_append, List.cons.injEq] at hcols
          exact ⟨ps, cell, post, hcols.2, fun x hx =>
            hpre x (List.mem_cons_of_mem p hx), hcell⟩

theorem cellDateInRange_year (cell : String) (dt : SimpleDate)
    (h : cellDateInRange cell = some dt) :
    START_YEAR ≤ dt.year ∧ dt.year ≤ END_YEAR := by
  unfold cellDateInRange at h
  cases he : extract_date_from_text cell with
  | none => rw [he]  at h; exact absurd h (by simp)
  | some d =>
    rw [he] at h
    dsimp only at h
    by_cases hr : START_YEAR ≤ d.year ∧ d.year ≤ END_YEAR
    · rw [if_pos hr] at h
      cases h
      exact hr
    · rw [if_neg hr] at h
      exact absurd h (by simp)

theorem ingestRow_cases (c : Counts) (cols : List String) :
    (∃ dt, rowBucket cols = some dt ∧ ingestRow c cols = bump c (dt.year, dt.month)) ∨
      (rowBucket cols = none ∧ ingestRow c cols = c) := by
  cases hb : rowBucket cols with
  | none => exact Or.inr ⟨rfl, by simp [ingestRow, hb]⟩
  | some dt => exact Or.inl ⟨dt, rfl, by simp [ingestRow, hb]⟩

/-! ### Date-validity lemma -/

theorem extract_date_valid (t : String) (dt : SimpleDate)
    (h : extract_date_from_text t = some dt) :
    validDate dt.year dt.month dt.day = true := by
  unfold extract_date_from_text at h
  cases hs : searchDate t.toList with
  | none => rw [hs] at h; exact absurd h (by simp)
  | some g =>
    obtain ⟨d, mo, y⟩ := g
    rw [hs] at h
    dsimp only at h
    by_cases hv : validDate (natOfDigits (if y.length = 2 then '2' :: '0' :: y else y))
        (natOfDigits mo) (natOfDigits d) = true
    · rw [if_pos hv] at h
      cases h
      exact hv
    · rw [if_neg hv] at h
      exact absurd h (by simp)

/-! ### Month-column lemmas -/

theorem monthCols_parse : MONTH_COLS.map parseMonthCol = bucketList := by decide

theorem workerMonths_eq (c : Counts) : workerMonths c = bucketList.map c := by
  rw [← monthCols_parse, List.map_map]
  rfl

theorem workerMonths_zero : workerMonths emptyCounts = List.replicate MONTH_COLS.length 0 := by
  decide

/-! ### Worker and orchestrator lemmas -/

theorem worker_ps_err (d : Nat) (ps e : String) :
    worker_ps d ps (.error e) = ⟨d, ps, List.replicate MONTH_COLS.length 0⟩ := by
  simp [worker_ps, workerMonths_zero]

theorem regionRows_ne_nil (d : Nat) (disc : Except String (List String))
    (fetch : String → Except String Counts) : regionRows d disc fetch ≠ [] := by
  cases disc with
  | error e => simp [regionRows]
  | ok l =>
    cases l with
    | nil => simp [regionRows]
    | cons p ps => simp [regionRows]

/-! ### Claim theorems -/

/-- C1: every output row has exactly `(END_YEAR - START_YEAR + 1) * 12`
month-count fields, one per `(year, month)` bucket in fixed chronological
order from `START_YEAR`-01 to `END_YEAR`-12, each count a natural number,
and a bucket no ingested row maps to reports zero. -/
theorem claim_C1 :
    (∀ (rows : List (List String)) (k : Nat × Nat),
        (∀ r ∈ rows, Option.map (fun dt => (dt.year, dt.month)) (rowBucket r) ≠ some k) →
        ingestRows emptyCounts rows k = 0)
    ∧ MONTH_COLS.length = (END_YEAR - START_YEAR + 1) * 12
    ∧ MONTH_COLS.map parseMonthCol = bucketList
    ∧ List.Chain' (fun a b => bucketLt a b = true) bucketList
    ∧ bucketList.head? = some (START_YEAR, 1)
    ∧ bucketList.getLast? = some (END_YEAR, 12)
    ∧ (∀ c : Counts, (workerMonths c).length = (END_YEAR - START_YEAR + 1) * 12)
    ∧ (∀ c : Counts, workerMonths c = bucketList.map c)
    ∧ (∀ (c : Counts) (v : Nat), v ∈ workerMonths c → 0 ≤ v)
    ∧ workerMonths emptyCounts = List.replicate MONTH_COLS.length 0 := by
  refine ⟨?_, by decide, monthCols_parse, chainB_chain' bucketLt bucketList (by decide),
    by decide, by decide, ?_, workerMonths_eq, fun c v _ => Nat.zero_le v, workerMonths_zero⟩
  · intro rows k h
    refine ingestRows_eq_of_no_bucket rows k ?_ emptyCounts
    intro r hr dt hdt hk
    exact h r hr (by rw [hdt, Option.map_some', hk])
  · intro c
    rw [workerMonths, List.length_map]
    decide

/-- C1 witness: a bucket no row maps to reports zero on a concrete batch. -/
theorem claim_C1_witness :
    ingestRows emptyCounts [["05/03/2021"]] (2020, 1) = 0 :=
  claim_C1.1 [["05/03/2021"]] (2020, 1) (by decide)

/-- C2 counterexample: on a three-page chain where each page offers only
the link to the next page, the walker visits two pages (it never scans
later pages for new page-turn actions), not three, and stops while the
last visited page still offers an unseen page-turn action whose post
would have succeeded. -/
theorem claim_C2_cex :
    (fetch_counts_core chainPage1 chainServer).2.length = 2
    ∧ orderedPageActions chainPage2 ≠ []
    ∧ (chainServer "gv" "Page$3" (extract_hidden_fields chainPage2)).isSome = true
    ∧ (2 : Nat) ≠ 3 := by decide

/-- C2 amended: the walker collects page-turn actions from the first
result page only; it visits the first page plus at most one page per
distinct page-turn argument found there — exactly one per action when
every page-turn post succeeds — and never follows actions discovered on
later pages, so the number of visited pages is bounded by the first
page's action list and termination never depends on the server ceasing
to offer actions. -/
theorem claim_C2 :
    (∀ (first : Soup) (server : Server),
        (fetch_counts_core first server).2.length ≤ 1 + (orderedPageActions first).length)
    ∧ (∀ (first : Soup) (server : Server),
        (∀ (t a : String) (h : Hidden), server t a h ≠ none) →
        (fetch_counts_core first server).2.length = 1 + (orderedPageActions first).length)
    ∧ (fetch_counts_core chainPage1 chainServer).2.length = 2 :=
  ⟨fetch_counts_core_pages_le, fetch_counts_core_pages_eq, by decide⟩

/-- C2 witness: with an always-succeeding server the walker visits the
first page plus one page per distinct first-page page-turn action. -/
theorem claim_C2_witness :
    (fetch_counts_core chainPage1 (fun _ _ _ => some chainPage3)).2.length =
      1 + (orderedPageActions chainPage1).length :=
  claim_C2.2.1 chainPage1 (fun _ _ _ => some chainPage3)
    (fun _ _ _ hn => Option.noConfusion hn)

/-- C3 counterexample: in the row `["01/01/1999", "02/02/2020"]` the first
cell's match is a valid date outside the year range; the claimed scan
stops there and counts nothing, but the code keeps scanning and counts
the second cell's date. -/
theorem claim_C3_cex :
    rowBucket ["01/01/1999", "02/02/2020"] = some ⟨2020, 2, 2⟩
    ∧ rowBucketClaimC3 ["01/01/1999", "02/02/2020"] = none
    ∧ ingestRow emptyCounts ["01/01/1999", "02/02/2020"] (2020, 2) = 1 := by decide

/-- C3 amended: the aggregator scans the row's cells in order and stops at
the first cell whose first date-pattern match is a valid calendar date
within the inclusive year range, incrementing that `(year, month)`
bucket; cells whose match is invalid or out of range do not stop the
scan; each row contributes at most one count. -/
theorem claim_C3 :
    (∀ (cols : List String) (dt : SimpleDate),
        (rowBucket cols = some dt ↔
          ∃ pre cell post, cols = pre ++ cell :: post ∧
            (∀ x ∈ pre, cellDateInRange x = none) ∧ cellDateInRange cell = some dt))
    ∧ (∀ (cell : String) (dt : SimpleDate), cellDateInRange cell = some dt →
        START_YEAR ≤ dt.year ∧ dt.year ≤ END_YEAR)
    ∧ (∀ (c : Counts) (cols : List String) (k : Nat × Nat), ingestRow c cols k ≤ c k + 1)
    ∧ (∀ (c : Counts) (cols : List String),
        (∃ dt, rowBucket cols = some dt ∧ ingestRow c cols = bump c (dt.year, dt.month)) ∨
          (rowBucket cols = none ∧ ingestRow c cols = c))
    ∧ rowBucket ["01/01/1999", "02/02/2020"] = some ⟨2020, 2, 2⟩ :=
  ⟨fun cols dt => rowBucket_eq_some_iff dt cols, cellDateInRange_year,
    ingestRow_le_succ, ingestRow_cases, by decide⟩

/-- C3 witness: the first-cell characterization applied to a concrete row. -/
theorem claim_C3_witness :
    rowBucket ["05/03/2021"] = some ⟨2021, 3, 5⟩ :=
  (claim_C3.1 ["05/03/2021"] ⟨2021, 3, 5⟩).mpr
    ⟨[], "05/03/2021", [], rfl, by simp, by decide⟩

/-- C4 counterexample: the first page offers two page-turn actions; the
post for the first fails, yet the walker still posts the second action
and counts its page's rows — it does not abort the remaining pagination. -/
theorem claim_C4_cex :
    (failingServer "gv" "Page$2" (extract_hidden_fields twoActionPage1)).isNone = true
    ∧ orderedPageActions twoActionPage1 = [("gv", "Page$2"), ("gv", "Page$3")]
    ∧ parse_fir_rows twoActionPage1 = [["01/02/2020"]]
    ∧ (fetch_counts_core twoActionPage1 failingServer).1 (2021, 3) = 1
    ∧ (fetch_counts_core twoActionPage1 failingServer).2.length = 2 := by decide

/-- C4 amended: a transport failure on a page-turn postback skips only
that page — contributing no rows and leaving the token snapshot and the
counts unchanged — and the walker continues with the remaining page-turn
actions; counts already aggregated are never lost. -/
theorem claim_C4 :
    (∀ (server : Server) (t a : String) (rest : List (String × String)) (h : Hidden)
        (c : Counts), server t a h = none →
        pageLoop server ((t, a) :: rest) h c = pageLoop server rest h c)
    ∧ (∀ (server : Server) (acts : List (String × String)) (h : Hidden) (c : Counts)
        (k : Nat × Nat), c k ≤ (pageLoop server acts h c).1 k) :=
  ⟨pageLoop_skip, fun server acts h c k => pageLoop_counts_le server acts h c k⟩

/-- C4 witness: skipping a concretely failing action. -/
theorem claim_C4_witness :
    pageLoop failingServer [("gv", "Page$2")] (extract_hidden_fields twoActionPage1)
        emptyCounts =
      pageLoop failingServer [] (extract_hidden_fields twoActionPage1) emptyCounts :=
  claim_C4.1 failingServer "gv" "Page$2" [] (extract_hidden_fields twoActionPage1)
    emptyCounts rfl

/-- C5: a crawl task that raises is absorbed into a zero-filled row for
its sub-region; a region whose discovery fails or yields no sub-regions
produces a single zero-filled row with an empty sub-region marker; the
per-region batch always produces rows. -/
theorem claim_C5 :
    (∀ (d : Nat) (ps e : String),
        worker_ps d ps (.error e) = ⟨d, ps, List.replicate MONTH_COLS.length 0⟩)
    ∧ (∀ (d : Nat) (e : String) (fetch : String → Except String Counts),
        regionRows d (.error e) fetch = [⟨d, "", List.replicate MONTH_COLS.length 0⟩])
    ∧ (∀ (d : Nat) (fetch : String → Except String Counts),
        regionRows d (.ok []) fetch = [⟨d, "", List.replicate MONTH_COLS.length 0⟩])
    ∧ (∀ (d : Nat) (disc : Except String (List String))
        (fetch : String → Except String Counts), regionRows d disc fetch ≠ []) :=
  ⟨worker_ps_err, fun _ _ _ => rfl, fun _ _ => rfl, regionRows_ne_nil⟩

/-- C5 witness: a concrete failed task becomes a zero-filled row. -/
theorem claim_C5_witness :
    worker_ps 3 "7" (.error "boom") = ⟨3, "7", List.replicate MONTH_COLS.length 0⟩ :=
  claim_C5.1 3 "7" "boom"

/-- C6: the date extractor returns the calendar date of the first
pattern match, maps two-digit years into century 2000+, returns nothing
on invalid calendar dates, and any returned date is valid. -/
theorem claim_C6 :
    extract_date_from_text "FIR No 12, dated 05/03/21, PS X" = some ⟨2021, 3, 5⟩
    ∧ extract_date_from_text "31/02/2023 invalid" = none
    ∧ extract_date_from_text "3-14-2022" = none
    ∧ (∀ (t : String) (dt : SimpleDate), extract_date_from_text t = some dt →
        validDate dt.year dt.month dt.day = true) :=
  ⟨by decide, by decide, by decide, extract_date_valid⟩

/-- C6 witness: validity of a concretely extracted date. -/
theorem claim_C6_witness : validDate 2021 3 5 = true :=
  claim_C6.2.2.2 "05/03/21" ⟨2021, 3, 5⟩ (by decide)

/-- C7: the walker selects exactly the postback actions whose argument
contains `Page$`, deduplicates them by argument value preserving
discovery order, and posts each distinct argument at most once; a page
offering the same argument twice yields a single action. -/
theorem claim_C7 :
    (∀ (s : Soup), ∀ ta ∈ orderedPageActions s,
        ta ∈ find_postback_actions s ∧ hasSub "Page$".toList ta.2.toList = true)
    ∧ (∀ s : Soup, ((orderedPageActions s).map Prod.snd).Nodup)
    ∧ (∀ s : Soup, List.Sublist (orderedPageActions s)
        ((find_postback_actions s).filter fun ta => hasSub "Page$".toList ta.2.toList))
    ∧ (∀ (s : Soup) (a : String),
        (a ∈ (orderedPageActions s).map Prod.snd ↔
          a ∈ ((find_postback_actions s).filter fun ta =>
            hasSub "Page$".toList ta.2.toList).map Prod.snd))
    ∧ orderedPageActions dupActionPage = [("gv", "Page$2")]
    ∧ (∀ (server : Server) (h : Hidden) (c : Counts),
        (pageLoop server (orderedPageActions dupActionPage) h c).2.2.length ≤ 1) := by
  refine ⟨?_, fun s => nodup_map_dedupKey Prod.snd _, fun s => dedupKey_sublist Prod.snd _,
    fun s a => mem_map_dedupKey Prod.snd a _, by decide, ?_⟩
  · intro s ta hta
    exact List.mem_filter.mp ((dedupKey_sublist Prod.snd _).subset hta)
  · intro server h c
    exact le_trans (pageLoop_pages_le server (orderedPageActions dupActionPage) h c)
      (le_of_eq (by decide))

/-- C7 witness: the single deduplicated action of the duplicate-offer
page is a postback action carrying the page-turn marker. -/
theorem claim_C7_witness :
    ("gv", "Page$2") ∈ find_postback_actions dupActionPage ∧
      hasSub "Page$".toList ("gv", "Page$2").2.toList = true :=
  claim_C7.1 dupActionPage ("gv", "Page$2") (by decide)

/-- C8: the option-list extractor returns the dependent select's values
deduplicated with first-seen order preserved, excluding the `"0"`
sentinel and empty values, and an absent select yields an empty list. -/
theorem claim_C8 :
    (∀ s : Soup, s.findTagById "select" "ctl00_ContentPlaceHolder1_ddlPoliceStation" = none →
        parse_ps_options s = [])
    ∧ (∀ s : Soup, (parse_ps_options s).Nodup)
    ∧ (∀ (s : Soup) (v : String),
        (v ∈ parse_ps_options s ↔ v ∈ psOptionValues s ∧ ¬ v = "" ∧ ¬ v = "0"))
    ∧ (∀ s : Soup, List.Sublist (parse_ps_options s) (psOptionValues s))
    ∧ parse_ps_options [] = [] := by
  refine ⟨?_, fun s => nodup_dedupKey_id _, ?_, ?_, rfl⟩
  · intro s h
    simp [parse_ps_options, psOptionValues, h, dedupKey, dedupKeyAux]
  · intro s v
    rw [show parse_ps_options s =
      dedupKey id ((psOptionValues s).filter fun v => ¬ v = "" ∧ ¬ v = "0") from rfl]
    rw [mem_dedupKey_id, List.mem_filter]
    simp
  · intro s
    exact List.Sublist.trans (dedupKey_sublist id _) (List.filter_sublist _)

/-- C8 witness: a page without the select control yields an empty list. -/
theorem claim_C8_witness : parse_ps_options [Node.elem "div" [] []] = [] :=
  claim_C8.1 [Node.elem "div" [] []] rfl

/-- C9: missing hidden fields resolve to the empty string (absent input
element or absent value attribute), and an absent results table or table
body yields an empty row list; the extractors are total. -/
theorem claim_C9 :
    (∀ s : Soup, s.findTagById "input" "__VIEWSTATE" = none →
        (extract_hidden_fields s).viewstate = "")
    ∧ (∀ s : Soup, s.findTagById "input" "__VIEWSTATEGENERATOR" = none →
        (extract_hidden_fields s).viewstategenerator = "")
    ∧ (∀ s : Soup, s.findTagById "input" "__EVENTVALIDATION" = none →
        (extract_hidden_fields s).eventvalidation = "")
    ∧ (∀ s : Soup, s.findTagById "input" "__LASTFOCUS" = none →
        (extract_hidden_fields s).lastfocus = "")
    ∧ (∀ (s : Soup) (idv : String) (el : Node), s.findTagById "input" idv = some el →
        el.attr "value" = none → hiddenVal s idv = "")
    ∧ (∀ s : Soup, s.findTagById "table" "example" = none → parse_fir_rows s = [])
    ∧ (∀ (s : Soup) (table : Node), s.findTagById "table" "example" = some table →
        table.findTag "tbody" = none → parse_fir_rows s = [])
    ∧ extract_hidden_fields ([] : Soup) = ⟨"", "", "", ""⟩
    ∧ parse_fir_rows ([] : Soup) = [] := by
  refine ⟨?_, ?_, ?_, ?_, ?_, ?_, ?_, rfl, rfl⟩
  · intro s h; simp [extract_hidden_fields, hiddenVal, h]
  · intro s h; simp [extract_hidden_fields, hiddenVal, h]
  · intro s h; simp [extract_hidden_fields, hiddenVal, h]
  · intro s h; simp [extract_hidden_fields, hiddenVal, h]
  · intro s idv el h1 h2; simp [hiddenVal, h1, Node.attrD, h2]
  · intro s h; simp [parse_fir_rows, h]
  · intro s table h1 h2; simp [parse_fir_rows, h1, h2]

/-- C9 witness: a page without the viewstate input resolves it to `""`. -/
theorem claim_C9_witness :
    (extract_hidden_fields [Node.elem "div" [] []]).viewstate = "" :=
  claim_C9.1 [Node.elem "div" [] []] rfl

/-- C10: within a cell only the first date-pattern match is examined — an
invalid first match suppresses any later valid date in the same cell —
while the row scan continues with the subsequent cells. -/
theorem claim_C10 :
    (∀ (cell : String) (rest : List String) (c : Counts), cellDateInRange cell = none →
        ingestRow c (cell :: rest) = ingestRow c rest)
    ∧ extract_date_from_text "31/02/2023 and 05/03/2021" = none
    ∧ extract_date_from_text "05/03/2021" = some ⟨2021, 3, 5⟩
    ∧ rowBucket ["31/02/2023 and 05/03/2021", "06/04/2022"] = some ⟨2022, 4, 6⟩ := by
  refine ⟨?_, by decide, by decide, by decide⟩
  intro cell rest c h
  simp [ingestRow, rowBucket, List.findSome?_cons, h]

/-- C10 witness: a cell with no usable date is skipped. -/
theorem claim_C10_witness :
    ingestRow emptyCounts ["no date here"] = ingestRow emptyCounts [] :=
  claim_C10.1 "no date here" [] emptyCounts (by decide)

end FirCount
